import Mathlib

/-!
Shallow embedding of the contract-management platform (Kassicus/homework):
the contract lifecycle state machine (`app/models/contract.py`,
`app/services/contract_service.py`), the mock e-signature workflow
(`app/services/docusign_service.py`, the void route in
`app/routes/contracts.py`), the document set
(`app/services/document_service.py`, `app/models/contract_document.py`),
the asynchronous activity logger (`app/services/activity_service.py`) and
the retention sweeper (`app/services/cleanup_service.py`,
`app/logging_db.py`).

Conventions: datetimes are integers (minutes, matching the
`total_seconds()/60` granularity used by the mock status progression);
Python `None` is `Option.none`; raised exceptions and returned
`{'success': False, 'error': ...}` dictionaries are `Except.error`;
the mock service's `random` draws are explicit parameters.
-/

/-- A row of `contract_status_history` (`ContractStatusHistory` in
`app/models/contract.py`).  The auto-increment id and `changed_at`
timestamp play no role in the claims and are omitted. -/
structure ContractStatusHistory where
  contract_id : Nat
  old_status : Option String
  new_status : String
  changed_by : Nat
  change_reason : Option String
  deriving Repr, DecidableEq

/-- A row of `contract_documents` (`ContractDocument` in
`app/models/contract_document.py`).  Fields that no claim touches
(`file_name`, `original_filename`, `file_size`, `mime_type`,
`extracted_text`, `document_type`, `description`) are omitted. -/
structure ContractDocument where
  id : Nat
  contract_id : Nat
  file_path : String
  uploaded_by : Nat
  uploaded_at : Int
  is_primary : Bool
  deriving Repr, DecidableEq

/-- A contract row (`Contract` in `app/models/contract.py`) together with
the `docusign_*` columns used by `app/services/docusign_service.py`. -/
structure Contract where
  id : Nat
  title : String
  status : String
  deleted_at : Option Int
  file_path : Option String
  docusign_envelope_id : Option String
  docusign_status : Option String
  docusign_sent_date : Option Int
  docusign_completed_date : Option Int
  docusign_recipient_email : Option String
  docusign_recipient_name : Option String
  docusign_document_id : Option Nat
  deriving Repr, DecidableEq

def Contract.STATUS_DRAFT : String := "draft"

def Contract.STATUS_UNDER_REVIEW : String := "under_review"

def Contract.STATUS_ACTIVE : String := "active"

def Contract.STATUS_EXPIRED : String := "expired"

def Contract.STATUS_TERMINATED : String := "terminated"

def Contract.STATUS_RENEWED : String := "renewed"

def Contract.STATUS_DELETED : String := "deleted"

def Contract.VALID_STATUSES : List String :=
  [Contract.STATUS_DRAFT, Contract.STATUS_UNDER_REVIEW, Contract.STATUS_ACTIVE,
   Contract.STATUS_EXPIRED, Contract.STATUS_TERMINATED, Contract.STATUS_RENEWED,
   Contract.STATUS_DELETED]

/-- `Contract.update_status` (`app/models/contract.py` lines 115-133):
raises `ValueError` on a status outside `VALID_STATUSES`, otherwise sets
the status field and adds one `ContractStatusHistory` row capturing the
old and new status. -/
def Contract.update_status (c : Contract) (new_status : String) (changed_by : Nat)
    (reason : Option String) : Except String (Contract × ContractStatusHistory) :=
  if new_status ∈ Contract.VALID_STATUSES then
    .ok ({ c with status := new_status },
      { contract_id := c.id, old_status := some c.status, new_status := new_status,
        changed_by := changed_by, change_reason := reason })
  else
    .error ("Invalid status: " ++ new_status)

/-- `Contract.soft_delete` (`app/models/contract.py` lines 135-138): sets
`deleted_at` to now, then calls `update_status` with `STATUS_DELETED`. -/
def Contract.soft_delete (c : Contract) (deleted_by : Nat) (now : Int) :
    Except String (Contract × ContractStatusHistory) :=
  Contract.update_status { c with deleted_at := some now }
    Contract.STATUS_DELETED deleted_by (some "Contract soft deleted")

/-- `Contract.restore` (`app/models/contract.py` lines 140-145): clears
`deleted_at`, then calls `update_status` with `STATUS_DRAFT`. -/
def Contract.restore (c : Contract) (restored_by : Nat) :
    Except String (Contract × ContractStatusHistory) :=
  Contract.update_status { c with deleted_at := none }
    Contract.STATUS_DRAFT restored_by (some "Contract restored from deletion")

/-- `ContractService.update_contract_status` (`app/services/contract_service.py`):
fetches the contract through `get_contract_by_id`, which filters out
soft-deleted rows (`deleted_at IS NULL`), then delegates to
`Contract.update_status`. -/
def ContractService.update_contract_status (c : Contract) (new_status : String)
    (changed_by : Nat) (reason : Option String) :
    Except String (Contract × ContractStatusHistory) :=
  if c.deleted_at = none then
    c.update_status new_status changed_by reason
  else
    .error "Contract not found"

/-- `ContractService.soft_delete_contract` (`app/services/contract_service.py`):
fetches through `get_contract_by_id` (soft-deleted rows excluded), then
delegates to `Contract.soft_delete`. -/
def ContractService.soft_delete_contract (c : Contract) (deleted_by : Nat)
    (now : Int) : Except String (Contract × ContractStatusHistory) :=
  if c.deleted_at = none then
    c.soft_delete deleted_by now
  else
    .error "Contract not found"

/-- `ContractService.restore_contract` (`app/services/contract_service.py`):
fetches with `Contract.query.get` (soft-deleted rows included), raises
`ValueError("Contract is not deleted")` when `deleted_at` is null, then
delegates to `Contract.restore`. -/
def ContractService.restore_contract (c : Contract) (restored_by : Nat) :
    Except String (Contract × ContractStatusHistory) :=
  if c.deleted_at = none then
    .error "Contract is not deleted"
  else
    c.restore restored_by

/-- Python `c in s` on a single-character needle (kernel-evaluable model
of string membership, used for the `'@' not in recipient_email` check). -/
def py_in_str (c : Char) (s : String) : Bool := s.data.contains c

/-- Python `s.startswith(pre)` (kernel-evaluable model over the character
list of the string). -/
def py_startswith (s pre : String) : Bool := pre.data.isPrefixOf s.data

/-- Result dictionary returned by the mock DocuSign service
(`{'success': ..., 'error': ..., 'status': ...}`); keys not used by any
claim are omitted. -/
structure DocusignResult where
  success : Bool
  error : Option String
  status : Option String
  deriving Repr, DecidableEq

def DocusignResult.fail (msg : String) : DocusignResult :=
  { success := false, error := some msg, status := none }

/-- Modelled from the spec: `Contract.get_primary_document` is called by
`DocuSignMockService.send_contract_for_signature` but is not defined in the
`Contract` model under `src/`; per the spec, the primary document is the
single document of the contract designated with `isPrimary == true`. -/
def Contract.get_primary_document (docs : List ContractDocument) :
    Option ContractDocument :=
  docs.find? (·.is_primary)

/-- Envelope id marker `"mock-ds-"` (constant `ENVELOPE_ID_` + `PREF` + `IX`
in `app/services/docusign_service.py`). -/
def DocuSignMockService.envelope_id_start : String := "mock-ds-"

/-- `DocuSignMockService.send_contract_for_signature`
(`app/services/docusign_service.py` lines 43-153).  `docs` is the list of
`ContractDocument` rows of contract `c`; `client_name` stands for
`contract.client.name`; `mock_envelope_id` abstracts the generated uuid;
`api_error` is the `random.random() < 0.05` draw. -/
def DocuSignMockService.send_contract_for_signature (c : Contract)
    (docs : List ContractDocument) (client_name : String)
    (recipient_email : String) (recipient_name : Option String)
    (document_id : Option Nat) (mock_envelope_id : String)
    (api_error : Bool) (now : Int) : DocusignResult × Contract :=
  if recipient_email = "" ∨ ¬ py_in_str '@' recipient_email then
    (.fail "Valid recipient email is required", c)
  else
    let selected : Except String (Option ContractDocument) :=
      match document_id with
      | some did =>
        match docs.find? (fun d => d.id == did && d.contract_id == c.id) with
        | some d => .ok (some d)
        | none =>
          .error "Selected document not found or does not belong to this contract"
      | none =>
        let sel : Option ContractDocument :=
          match Contract.get_primary_document docs with
          | some d => some d
          | none => docs.head?
        if sel = none ∧ c.file_path = none then
          .error "No documents available to send"
        else
          .ok sel
    match selected with
    | .error e => (.fail e, c)
    | .ok sel =>
      if api_error then
        (.fail "DocuSign service temporarily unavailable (mock error)", c)
      else
        let c1 := { c with
          docusign_envelope_id := some mock_envelope_id,
          docusign_status := some "sent",
          docusign_sent_date := some now,
          docusign_recipient_email := some recipient_email,
          docusign_recipient_name := some (recipient_name.getD client_name),
          docusign_document_id := sel.map (·.id) }
        let c2 :=
          if c1.status = Contract.STATUS_DRAFT then
            { c1 with status := Contract.STATUS_UNDER_REVIEW }
          else c1
        ({ success := true, error := none, status := some "sent" }, c2)

/-- `DocuSignMockService._simulate_status_progression`
(`app/services/docusign_service.py` lines 247-268).  `rand_pct` is the
`random.random()` draw scaled to percent (`< 70` completed, `< 90` still
delivered, otherwise declined). -/
def DocuSignMockService.simulate_status_progression (current_status : Option String)
    (minutes_elapsed : Int) (rand_pct : Nat) : Option String :=
  if current_status = some "sent" then
    if minutes_elapsed > 2 then some "delivered" else current_status
  else if current_status = some "delivered" then
    if minutes_elapsed > 5 then
      if rand_pct < 70 then some "completed"
      else if rand_pct < 90 then some "delivered"
      else some "declined"
    else current_status
  else current_status

/-- Contract lookup performed by `check_envelope_status`: by primary key
when `contract_id` is given, otherwise by `docusign_envelope_id`, evaluated
against the single tracked contract. -/
def DocuSignMockService.envelope_lookup_hits (c : Contract) (envelope_id : String)
    (contract_id : Option Nat) : Bool :=
  match contract_id with
  | some cid => c.id == cid
  | none => c.docusign_envelope_id == some envelope_id

/-- `DocuSignMockService.check_envelope_status`
(`app/services/docusign_service.py` lines 155-245).  The contract lookup
(by id when `contract_id` is given, otherwise by
`docusign_envelope_id == envelope_id`) is evaluated against the single
tracked contract `c`; times are in minutes. -/
def DocuSignMockService.check_envelope_status (c : Contract)
    (envelope_id : String) (contract_id : Option Nat) (rand_pct : Nat)
    (now : Int) : DocusignResult × Contract :=
  if ¬ py_startswith envelope_id DocuSignMockService.envelope_id_start then
    (.fail "Invalid envelope ID format", c)
  else
    let found : Bool := DocuSignMockService.envelope_lookup_hits c envelope_id contract_id
    if ¬ found then
      (.fail "Contract not found for envelope", c)
    else
      match c.docusign_sent_date with
      | none => (.fail "No send date found for envelope", c)
      | some sent_date =>
        let time_elapsed := now - sent_date
        let current_status := c.docusign_status
        let new_status :=
          DocuSignMockService.simulate_status_progression current_status
            time_elapsed rand_pct
        let c3 :=
          if new_status ≠ current_status then
            let c1 := { c with docusign_status := new_status }
            if new_status = some "completed" ∧ c.docusign_completed_date = none then
              let c2 := { c1 with docusign_completed_date := some now }
              if c2.status = Contract.STATUS_UNDER_REVIEW then
                { c2 with status := Contract.STATUS_ACTIVE }
              else c2
            else c1
          else c
        ({ success := true, error := none, status := new_status }, c3)

/-- Route `void_docusign_envelope` (`app/routes/contracts.py` lines
1119-1171): flashes an error when no envelope exists or when the envelope
is completed, otherwise sets `docusign_status` to `'voided'`. -/
def void_docusign_envelope (c : Contract) : Except String Contract :=
  match c.docusign_envelope_id with
  | none => .error "No DocuSign envelope found to void."
  | some _ =>
    if c.docusign_status = some "completed" then
      .error "Cannot void a completed envelope."
    else
      .ok { c with docusign_status := some "voided" }

/-- `DocumentService._unset_primary_documents`
(`app/services/document_service.py` lines 233-238): clears `is_primary` on
every document of the contract that currently has it set. -/
def DocumentService.unset_primary_documents (db : List ContractDocument)
    (contract_id : Nat) : List ContractDocument :=
  db.map fun d =>
    if d.contract_id == contract_id && d.is_primary then
      { d with is_primary := false }
    else d

/-- Auto-increment primary key for `contract_documents`: one more than the
largest id in the table (SQLite rowid allocation). -/
def DocumentService.next_document_id (db : List ContractDocument) : Nat :=
  db.foldr (fun d m => max d.id m) 0 + 1

/-- `DocumentService.upload_document` (`app/services/document_service.py`
lines 21-90): when `is_primary` is requested, first unsets the other
primary documents of the contract, then inserts the new row.  File saving
and text extraction are external collaborators; `file_path` abstracts the
saved blob. -/
def DocumentService.upload_document (db : List ContractDocument)
    (contract_id : Nat) (file_path : String) (uploaded_by : Nat) (now : Int)
    (is_primary : Bool) : List ContractDocument :=
  let doc : ContractDocument :=
    { id := DocumentService.next_document_id db, contract_id := contract_id,
      file_path := file_path, uploaded_by := uploaded_by, uploaded_at := now,
      is_primary := is_primary }
  let db1 :=
    if is_primary then DocumentService.unset_primary_documents db contract_id
    else db
  db1 ++ [doc]

/-- Ordering used by `_set_next_primary_document`:
`order_by(uploaded_at.desc()).first()`.  Among equal `uploaded_at` keys SQL
order is unspecified; the model keeps the earlier row. -/
def DocumentService.latest_uploaded : List ContractDocument → Option ContractDocument
  | [] => none
  | d :: ds =>
    match DocumentService.latest_uploaded ds with
    | none => some d
    | some e => if d.uploaded_at < e.uploaded_at then some e else some d

/-- `DocumentService._set_next_primary_document`
(`app/services/document_service.py` lines 240-252): promotes the most
recently uploaded document of the contract, excluding `exclude_id`, if any
remains. -/
def DocumentService.set_next_primary_document (db : List ContractDocument)
    (contract_id : Nat) (exclude_id : Option Nat) : List ContractDocument :=
  let candidates := db.filter fun d =>
    d.contract_id == contract_id &&
      (match exclude_id with
       | some e => d.id != e
       | none => true)
  match DocumentService.latest_uploaded candidates with
  | none => db
  | some nd =>
    db.map fun d =>
      if d.id == nd.id then { d with is_primary := true } else d

/-- `DocumentService.set_primary_document`
(`app/services/document_service.py` lines 166-218): raises
`ValueError("Document not found")` unless a document with this id belongs
to the contract; otherwise unsets the other primaries and marks this one. -/
def DocumentService.set_primary_document (db : List ContractDocument)
    (document_id contract_id : Nat) : Except String (List ContractDocument) :=
  match db.find? (fun d => d.id == document_id && d.contract_id == contract_id) with
  | none => .error "Document not found"
  | some _ =>
    let db1 := DocumentService.unset_primary_documents db contract_id
    .ok (db1.map fun d =>
      if d.id == document_id then { d with is_primary := true } else d)

/-- `DocumentService.delete_document` (`app/services/document_service.py`
lines 93-164): checks existence and (optional) contract ownership, promotes
the next primary when the deleted document was primary, then hard-deletes
the row.  Blob deletion on disk is best-effort and external. -/
def DocumentService.delete_document (db : List ContractDocument)
    (document_id : Nat) (contract_id : Option Nat) :
    Except String (List ContractDocument) :=
  match db.find? (fun d => d.id == document_id) with
  | none => .error "Document not found"
  | some doc =>
    let mismatch : Bool :=
      match contract_id with
      | some cid => doc.contract_id != cid
      | none => false
    if mismatch then
      .error "Document does not belong to specified contract"
    else
      let db1 :=
        if doc.is_primary then
          DocumentService.set_next_primary_document db doc.contract_id (some doc.id)
        else db
      .ok (db1.filter fun d => d.id != document_id)

/-- Payload of an `'activity'` queue item (`ActivityLogger.log_activity`,
`app/services/activity_service.py` lines 78-106; `timestamp` omitted). -/
structure ActivityData where
  user_id : Nat
  action : String
  resource_type : String
  resource_id : Option Nat
  resource_title : Option String
  success : Bool
  error_message : Option String
  ip_address : Option String
  user_agent : Option String
  deriving Repr, DecidableEq

/-- Payload of a `'version'` queue item (`ActivityLogger.log_contract_change`,
`app/services/activity_service.py` lines 108-128; `timestamp` omitted). -/
structure ContractVersionData where
  contract_id : Nat
  user_id : Nat
  field_name : String
  old_value : Option String
  new_value : Option String
  deriving Repr, DecidableEq

/-- A queued log request (the `{'type': ..., 'data': ...}` dictionaries put
on `ActivityLogger.log_queue`). -/
inductive LogData where
  | activity (d : ActivityData)
  | version (d : ContractVersionData)
  deriving Repr, DecidableEq

/-- `ActivityLogger.log_activity`: builds an `'activity'` payload and puts
it on the queue unconditionally. -/
def ActivityLogger.log_activity (q : List LogData) (d : ActivityData) :
    List LogData :=
  q ++ [.activity d]

/-- `ActivityLogger.log_contract_change` (`app/services/activity_service.py`
lines 108-128): builds a `'version'` payload and puts it on the queue —
unconditionally; values are already strings in this model, so the
`str(x) if x is not None else None` conversion is the identity. -/
def ActivityLogger.log_contract_change (q : List LogData)
    (contract_id user_id : Nat) (field_name : String)
    (old_value new_value : Option String) : List LogData :=
  let d : ContractVersionData :=
    { contract_id := contract_id, user_id := user_id,
      field_name := field_name, old_value := old_value,
      new_value := new_value }
  q ++ [.version d]

/-- Python `str()` applied to an optional string: `str(None) = "None"`. -/
def pystr : Option String → String
  | none => "None"
  | some s => s

/-- The `tracked_fields` list of `log_contract_changes`
(`app/services/activity_service.py` lines 204-208). -/
def tracked_fields : List String :=
  ["title", "description", "client_id", "contract_type", "status",
   "contract_value", "effective_date", "expiration_date", "renewal_date"]

/-- `log_contract_changes` (`app/services/activity_service.py` lines
187-230): for each tracked field, enqueues a version entry only when the
stringified old and new values differ.  `old_values`/`new_values` map a
field name to its (pre-stringified, `isoformat`-normalised) value. -/
def log_contract_changes (q : List LogData) (contract_id user_id : Nat)
    (old_values new_values : String → Option String) : List LogData :=
  tracked_fields.foldl
    (fun acc field =>
      if pystr (old_values field) ≠ pystr (new_values field) then
        ActivityLogger.log_contract_change acc contract_id user_id field
          (old_values field) (new_values field)
      else acc)
    q

/-- A row of the audit store's `activity_logs` table, reduced to the
`timestamp` column which is all the retention logic reads.  Retention
times are in days. -/
structure ActivityLog where
  timestamp : Int
  deriving Repr, DecidableEq

/-- A row of the audit store's `contract_versions` table, reduced to its
`timestamp` column. -/
structure ContractVersion where
  timestamp : Int
  deriving Repr, DecidableEq

/-- `cleanup_old_logs` (`app/logging_db.py` lines 60-88): deletes activity
logs with `timestamp < now - days` and contract versions with
`timestamp < now - 90` (the version cutoff is hardcoded to 90 days). -/
def cleanup_old_logs (logs : List ActivityLog) (versions : List ContractVersion)
    (now days : Int) : List ActivityLog × List ContractVersion :=
  let cutoff_date := now - days
  let version_cutoff := now - 90
  (logs.filter fun r => decide (cutoff_date ≤ r.timestamp),
   versions.filter fun v => decide (version_cutoff ≤ v.timestamp))

/-- `CleanupService.cleanup_soft_deleted_contracts`
(`app/services/cleanup_service.py` lines 73-103): hard-deletes every
contract with `deleted_at` non-null and `deleted_at < now - days`. -/
def CleanupService.cleanup_soft_deleted_contracts (contracts : List Contract)
    (now days : Int) : List Contract :=
  let cutoff_date := now - days
  contracts.filter fun c =>
    match c.deleted_at with
    | some d => decide (cutoff_date ≤ d)
    | none => true

/-- State touched by a retention sweep: the audit store, the primary
contract table, the document rows and the set of blob paths on disk. -/
structure RetentionState where
  activity_logs : List ActivityLog
  contract_versions : List ContractVersion
  contracts : List Contract
  documents : List ContractDocument
  blobs : List String
  deriving Repr, DecidableEq

/-- `CleanupService.run_all_cleanup_tasks` (`app/services/cleanup_service.py`
lines 57-71): `cleanup_old_logs(days=30)` then
`cleanup_soft_deleted_contracts(days=30)`.  It only issues
`db.session.delete(contract)`: document rows and blobs are not touched. -/
def CleanupService.run_all_cleanup_tasks (s : RetentionState) (now : Int) :
    RetentionState :=
  let lv := cleanup_old_logs s.activity_logs s.contract_versions now 30
  let contracts := CleanupService.cleanup_soft_deleted_contracts s.contracts now 30
  { s with activity_logs := lv.1, contract_versions := lv.2,
           contracts := contracts }

/-- State threaded through a sequence of contract-lifecycle operations: the
tracked contract, its status history, its documents and its client's name. -/
structure ContractState where
  contract : Contract
  history : List ContractStatusHistory
  documents : List ContractDocument
  client_name : String
  deriving Repr, DecidableEq

/-- One operation of the contract lifecycle: the service-level status
update, soft delete and restore, and the two DocuSign operations that also
touch `contract.status`. -/
inductive ContractOp where
  | updateStatus (new_status : String) (changed_by : Nat) (reason : Option String)
  | softDelete (deleted_by : Nat) (now : Int)
  | restoreContract (restored_by : Nat)
  | docusignSend (recipient_email : String) (recipient_name : Option String)
      (document_id : Option Nat) (mock_envelope_id : String)
      (api_error : Bool) (now : Int)
  | docusignCheck (envelope_id : String) (contract_id : Option Nat)
      (rand_pct : Nat) (now : Int)
  deriving Repr, DecidableEq

/-- Effect of one operation; a raised exception rolls the transaction back,
leaving the state unchanged. -/
def applyContractOp (s : ContractState) : ContractOp → ContractState
  | .updateStatus ns u r =>
    match ContractService.update_contract_status s.contract ns u r with
    | .ok (c, h) => { s with contract := c, history := h :: s.history }
    | .error _ => s
  | .softDelete u now =>
    match ContractService.soft_delete_contract s.contract u now with
    | .ok (c, h) => { s with contract := c, history := h :: s.history }
    | .error _ => s
  | .restoreContract u =>
    match ContractService.restore_contract s.contract u with
    | .ok (c, h) => { s with contract := c, history := h :: s.history }
    | .error _ => s
  | .docusignSend re rn did env apierr now =>
    { s with contract := (DocuSignMockService.send_contract_for_signature
        s.contract s.documents s.client_name re rn did env apierr now).2 }
  | .docusignCheck env cid rand now =>
    { s with contract :=
        (DocuSignMockService.check_envelope_status s.contract env cid rand now).2 }

def runContractOps (s : ContractState) : List ContractOp → ContractState
  | [] => s
  | op :: ops => runContractOps (applyContractOp s op) ops

def exceptOk {ε α : Type} : Except ε α → Bool
  | .ok _ => true
  | .error _ => false

/-- Whether the operation performs a successful `update_status` call (the
only code path that appends a `ContractStatusHistory` row). -/
def opUpdateSucceeds (s : ContractState) : ContractOp → Bool
  | .updateStatus ns u r =>
    exceptOk (ContractService.update_contract_status s.contract ns u r)
  | .softDelete u now =>
    exceptOk (ContractService.soft_delete_contract s.contract u now)
  | .restoreContract u =>
    exceptOk (ContractService.restore_contract s.contract u)
  | _ => false

/-- Number of successful `update_status` calls along a run. -/
def countStatusUpdates (s : ContractState) : List ContractOp → Nat
  | [] => 0
  | op :: ops =>
    (if opUpdateSucceeds s op then 1 else 0) +
      countStatusUpdates (applyContractOp s op) ops

/-- Number of steps along a run at which the contract's `status` field
actually changes. -/
def countStatusFieldChanges (s : ContractState) : List ContractOp → Nat
  | [] => 0
  | op :: ops =>
    let s1 := applyContractOp s op
    (if s1.contract.status ≠ s.contract.status then 1 else 0) +
      countStatusFieldChanges s1 ops

/-- One operation of the document set. -/
inductive DocOp where
  | upload (contract_id : Nat) (file_path : String) (uploaded_by : Nat)
      (now : Int) (is_primary : Bool)
  | deleteDoc (document_id : Nat) (contract_id : Option Nat)
  | setPrimary (document_id contract_id : Nat)
  deriving Repr, DecidableEq

/-- Effect of a document operation; a raised exception rolls back, leaving
the table unchanged. -/
def applyDocOp (db : List ContractDocument) : DocOp → List ContractDocument
  | .upload cid path u now isP =>
    DocumentService.upload_document db cid path u now isP
  | .deleteDoc did cid =>
    match DocumentService.delete_document db did cid with
    | .ok db1 => db1
    | .error _ => db
  | .setPrimary did cid =>
    match DocumentService.set_primary_document db did cid with
    | .ok db1 => db1
    | .error _ => db

def runDocOps (db : List ContractDocument) : List DocOp → List ContractDocument
  | [] => db
  | op :: ops => runDocOps (applyDocOp db op) ops

/-- Number of documents of the contract with `is_primary` set. -/
def countPrimary (db : List ContractDocument) (contract_id : Nat) : Nat :=
  db.countP fun d => d.contract_id == contract_id && d.is_primary

def docIds (db : List ContractDocument) : List Nat := db.map (·.id)

/-- At most one `is_primary` document per contract. -/
def atMostOnePrimary (db : List ContractDocument) : Prop :=
  ∀ cid, countPrimary db cid ≤ 1

/-- Well-formedness of the document table: primary keys are unique and each
contract has at most one primary document. -/
def documentInvariant (db : List ContractDocument) : Prop :=
  (docIds db).Nodup ∧ atMostOnePrimary db

/-- Runner for the void route: an error flash leaves the contract unchanged. -/
def applyVoid (c : Contract) : Contract :=
  match void_docusign_envelope c with
  | .ok c1 => c1
  | .error _ => c

/-- Concrete draft contract used as a witness input. -/
def sampleDraftContract : Contract :=
  { id := 1, title := "Sample", status := "draft", deleted_at := none,
    file_path := none, docusign_envelope_id := none, docusign_status := none,
    docusign_sent_date := none, docusign_completed_date := none,
    docusign_recipient_email := none, docusign_recipient_name := none,
    docusign_document_id := none }

/-- Concrete contract whose envelope has been completed. -/
def sampleCompletedContract : Contract :=
  { sampleDraftContract with
    status := "active",
    docusign_envelope_id := some "mock-ds-0001",
    docusign_status := some "completed",
    docusign_sent_date := some 0, docusign_completed_date := some 20 }

/-- Concrete document attached to `sampleDraftContract`. -/
def sampleDoc : ContractDocument :=
  { id := 1, contract_id := 1, file_path := "f.pdf", uploaded_by := 1,
    uploaded_at := 0, is_primary := true }

/-- Concrete lifecycle state used as a witness input. -/
def sampleState : ContractState :=
  { contract := sampleDraftContract, history := [], documents := [sampleDoc],
    client_name := "Acme" }

/-- Concrete contract under review with a delivered envelope. -/
def sampleUnderReviewContract : Contract :=
  { sampleDraftContract with
    status := "under_review",
    docusign_envelope_id := some "mock-ds-0001",
    docusign_status := some "delivered",
    docusign_sent_date := some 0 }

/-- Operation sequence reaching a state where an envelope is observed
reaching `completed` while the contract is `under_review`, yet a completion
date from an earlier envelope is already recorded. -/
def staleCompletionOps : List ContractOp :=
  [.docusignSend "a@b.com" none (some 1) "mock-ds-0001" false 0,
   .docusignCheck "mock-ds-0001" none 0 10,
   .docusignCheck "mock-ds-0001" none 0 20,
   .updateStatus "under_review" 1 none,
   .docusignSend "a@b.com" none (some 1) "mock-ds-0002" false 100,
   .docusignCheck "mock-ds-0002" none 0 110]

/-- The C2 invariant: a contract's status is DELETED exactly when its
soft-delete timestamp is set. -/
abbrev status_deleted_iff_deleted_at (c : Contract) : Prop :=
  c.status = Contract.STATUS_DELETED ↔ c.deleted_at ≠ none

/-- Restriction forced by the C2 counterexample: the generic status-update
operation is never invoked with `STATUS_DELETED` directly (soft delete is
the only path that sets it). -/
abbrev opAvoidsDirectDeleted (op : ContractOp) : Prop :=
  match op with
  | .updateStatus ns _ _ => ns ≠ Contract.STATUS_DELETED
  | _ => True

instance opAvoidsDirectDeleted.decidable (op : ContractOp) :
    Decidable (opAvoidsDirectDeleted op) :=
  match op with
  | .updateStatus ns _ _ =>
    inferInstanceAs (Decidable (ns ≠ Contract.STATUS_DELETED))
  | .softDelete _ _ => inferInstanceAs (Decidable True)
  | .restoreContract _ => inferInstanceAs (Decidable True)
  | .docusignSend _ _ _ _ _ _ => inferInstanceAs (Decidable True)
  | .docusignCheck _ _ _ _ => inferInstanceAs (Decidable True)

/-- The version record that `log_contract_change` builds from its
arguments. -/
def versionEntry (cid uid : Nat) (field : String)
    (old_value new_value : Option String) : LogData :=
  .version
    { contract_id := cid, user_id := uid, field_name := field,
      old_value := old_value, new_value := new_value }

/-- Contract soft-deleted 31 days before the sweep, still owning a
document row and a blob on disk. -/
def staleBlobbedState : RetentionState :=
  { activity_logs := [], contract_versions := [],
    contracts := [{ sampleDraftContract with
      deleted_at := some (-31), status := "deleted" }],
    documents := [sampleDoc], blobs := ["f.pdf"] }

/-- Contract soft-deleted 29 days before the sweep. -/
def contract29 : Contract :=
  { sampleDraftContract with deleted_at := some (-29), status := "deleted" }

/-- Audit store with rows on both sides of the retention cutoffs. -/
def retentionWitnessState : RetentionState :=
  { activity_logs := [{ timestamp := -40 }, { timestamp := -10 }],
    contract_versions := [{ timestamp := -100 }, { timestamp := -40 }],
    contracts := [contract29], documents := [], blobs := [] }

/-- Concrete primary document of contract 1. -/
def docA : ContractDocument :=
  { id := 1, contract_id := 1, file_path := "a.pdf", uploaded_by := 1,
    uploaded_at := 0, is_primary := true }

/-- Concrete non-primary document of contract 1, uploaded later. -/
def docB : ContractDocument :=
  { id := 2, contract_id := 1, file_path := "b.pdf", uploaded_by := 1,
    uploaded_at := 5, is_primary := false }

theorem send_deleted_at_eq (c : Contract) (docs : List ContractDocument)
    (cn re : String) (rn : Option String) (did : Option Nat) (env : String)
    (ae : Bool) (now : Int) :
    (DocuSignMockService.send_contract_for_signature c docs cn re rn did env
      ae now).2.deleted_at = c.deleted_at := by
  unfold DocuSignMockService.send_contract_for_signature
  dsimp only
  split
  · rfl
  · split
    · rfl
    · split
      · rfl
      · dsimp only
        split <;> rfl

theorem send_status_or (c : Contract) (docs : List ContractDocument)
    (cn re : String) (rn : Option String) (did : Option Nat) (env : String)
    (ae : Bool) (now : Int) :
    (DocuSignMockService.send_contract_for_signature c docs cn re rn did env
      ae now).2.status = c.status ∨
    (c.status = Contract.STATUS_DRAFT ∧
      (DocuSignMockService.send_contract_for_signature c docs cn re rn did env
        ae now).2.status = Contract.STATUS_UNDER_REVIEW) := by
  unfold DocuSignMockService.send_contract_for_signature
  dsimp only
  split
  · exact .inl rfl
  · split
    · exact .inl rfl
    · split
      · exact .inl rfl
      · dsimp only
        split
        · rename_i h
          exact .inr ⟨h, rfl⟩
        · exact .inl rfl

theorem send_success_draft (c : Contract) (docs : List ContractDocument)
    (cn re : String) (rn : Option String) (did : Option Nat) (env : String)
    (ae : Bool) (now : Int)
    (hok : (DocuSignMockService.send_contract_for_signature c docs cn re rn did
      env ae now).1.success = true)
    (hdraft : c.status = Contract.STATUS_DRAFT) :
    (DocuSignMockService.send_contract_for_signature c docs cn re rn did env
      ae now).2.status = Contract.STATUS_UNDER_REVIEW := by
  revert hok
  unfold DocuSignMockService.send_contract_for_signature
  dsimp only
  split
  · intro h
    exact absurd h (by simp [DocusignResult.fail])
  · split
    · intro h
      exact absurd h (by simp [DocusignResult.fail])
    · split
      · intro h
        exact absurd h (by simp [DocusignResult.fail])
      · dsimp only
        intro _
        simp [hdraft]

theorem send_fail_eq (c : Contract) (docs : List ContractDocument)
    (cn re : String) (rn : Option String) (did : Option Nat) (env : String)
    (ae : Bool) (now : Int)
    (hfail : (DocuSignMockService.send_contract_for_signature c docs cn re rn
      did env ae now).1.success = false) :
    (DocuSignMockService.send_contract_for_signature c docs cn re rn did env
      ae now).2 = c := by
  revert hfail
  unfold DocuSignMockService.send_contract_for_signature
  dsimp only
  split
  · intro _
    rfl
  · split
    · intro _
      rfl
    · split
      · intro _
        rfl
      · dsimp only
        intro h
        simp at h

theorem check_deleted_at_eq (c : Contract) (env : String) (cid : Option Nat)
    (rand : Nat) (now : Int) :
    (DocuSignMockService.check_envelope_status c env cid rand now).2.deleted_at
      = c.deleted_at := by
  unfold DocuSignMockService.check_envelope_status
  dsimp only
  split
  · rfl
  · split
    · rfl
    · split
      · rfl
      · dsimp only
        split
        · split
          · split <;> rfl
          · rfl
        · rfl

theorem check_status_or (c : Contract) (env : String) (cid : Option Nat)
    (rand : Nat) (now : Int) :
    (DocuSignMockService.check_envelope_status c env cid rand now).2.status
        = c.status ∨
    (c.status = Contract.STATUS_UNDER_REVIEW ∧
     (DocuSignMockService.check_envelope_status c env cid rand now).2.status
        = Contract.STATUS_ACTIVE ∧
     c.docusign_completed_date = none ∧
     (DocuSignMockService.check_envelope_status c env cid rand
        now).2.docusign_completed_date = some now ∧
     ∃ sd, c.docusign_sent_date = some sd ∧
       DocuSignMockService.simulate_status_progression c.docusign_status
         (now - sd) rand = some "completed") := by
  unfold DocuSignMockService.check_envelope_status
  dsimp only
  split
  · exact .inl rfl
  · split
    · exact .inl rfl
    · split
      · exact .inl rfl
      · rename_i sd hsd
        dsimp only
        split
        · rename_i hne
          split
          · rename_i hcomp
            split
            · rename_i hur
              exact .inr ⟨hur, rfl, hcomp.2, rfl, sd, hsd, hcomp.1⟩
            · exact .inl rfl
          · exact .inl rfl
        · exact .inl rfl

theorem check_completed_transition (c : Contract) (env : String)
    (cid : Option Nat) (rand : Nat) (now sd : Int)
    (hpre : py_startswith env DocuSignMockService.envelope_id_start = true)
    (hfound : DocuSignMockService.envelope_lookup_hits c env cid = true)
    (hsd : c.docusign_sent_date = some sd)
    (hprog : DocuSignMockService.simulate_status_progression c.docusign_status
      (now - sd) rand = some "completed")
    (hcur : c.docusign_status ≠ some "completed")
    (hdate : c.docusign_completed_date = none)
    (hur : c.status = Contract.STATUS_UNDER_REVIEW) :
    (DocuSignMockService.check_envelope_status c env cid rand now).2.status
        = Contract.STATUS_ACTIVE ∧
    (DocuSignMockService.check_envelope_status c env cid rand
      now).2.docusign_completed_date = some now ∧
    (DocuSignMockService.check_envelope_status c env cid rand now).1
      = { success := true, error := none, status := some "completed" } := by
  obtain ⟨f1, f2, f3, f4, f5, f6, f7, f8, f9, f10, f11, f12⟩ := c
  dsimp only at hsd hprog hcur hdate hur ⊢
  subst hur hsd hdate
  have hner : (some "completed" : Option String) ≠ f7 := fun h => hcur h.symm
  unfold DocuSignMockService.check_envelope_status
  simp [hpre, hfound, hprog, hner]

/-- C10: checking the status of an envelope whose id does not start with
`"mock-ds-"` fails with `'Invalid envelope ID format'` and leaves the
contract (and in particular its envelope fields) unchanged; the result does
not depend on the contract at all, so no lookup is involved. -/
theorem check_envelope_status_rejects_bad_envelope_id (c c' : Contract)
    (env : String) (cid : Option Nat) (rand : Nat) (now : Int)
    (h : py_startswith env DocuSignMockService.envelope_id_start = false) :
    DocuSignMockService.check_envelope_status c env cid rand now
        = (DocusignResult.fail "Invalid envelope ID format", c) ∧
    (DocuSignMockService.check_envelope_status c' env cid rand now).1
        = (DocuSignMockService.check_envelope_status c env cid rand now).1 := by
  constructor
  · unfold DocuSignMockService.check_envelope_status
    simp [h]
  · unfold DocuSignMockService.check_envelope_status
    simp [h]

theorem check_envelope_status_rejects_bad_envelope_id_witness :
    py_startswith "bad-id" DocuSignMockService.envelope_id_start = false ∧
    (DocuSignMockService.check_envelope_status sampleDraftContract "bad-id"
        none 0 0
      = (DocusignResult.fail "Invalid envelope ID format", sampleDraftContract) ∧
     (DocuSignMockService.check_envelope_status sampleCompletedContract
        "bad-id" none 0 0).1
      = (DocuSignMockService.check_envelope_status sampleDraftContract "bad-id"
        none 0 0).1) :=
  ⟨by decide,
   check_envelope_status_rejects_bad_envelope_id sampleDraftContract
     sampleCompletedContract "bad-id" none 0 0 (by decide)⟩

/-- C5: voiding an envelope whose status is `completed` always fails with
the conflict error `"Cannot void a completed envelope."` and leaves the
contract, hence the envelope status, unchanged. -/
theorem void_completed_envelope_always_fails (c : Contract) (e : String)
    (henv : c.docusign_envelope_id = some e)
    (hst : c.docusign_status = some "completed") :
    void_docusign_envelope c = .error "Cannot void a completed envelope." ∧
    applyVoid c = c := by
  have h1 : void_docusign_envelope c = .error "Cannot void a completed envelope." := by
    unfold void_docusign_envelope
    rw [henv]
    simp [hst]
  exact ⟨h1, by unfold applyVoid; rw [h1]⟩

theorem void_completed_envelope_always_fails_witness :
    sampleCompletedContract.docusign_envelope_id = some "mock-ds-0001" ∧
    sampleCompletedContract.docusign_status = some "completed" ∧
    (void_docusign_envelope sampleCompletedContract
        = .error "Cannot void a completed envelope." ∧
     applyVoid sampleCompletedContract = sampleCompletedContract) :=
  ⟨rfl, rfl,
   void_completed_envelope_always_fails sampleCompletedContract "mock-ds-0001"
     rfl rfl⟩

/-- C7: `update_status` with a status outside the enum raises
`ValueError("Invalid status: ...")` and leaves both the status field and
the status history unchanged; with a status in the enum it succeeds and
appends exactly one history entry recording the old and the new status. -/
theorem update_status_validates_and_records (s : ContractState) (ns : String)
    (u : Nat) (r : Option String) :
    (ns ∉ Contract.VALID_STATUSES →
      Contract.update_status s.contract ns u r
          = .error ("Invalid status: " ++ ns) ∧
      applyContractOp s (.updateStatus ns u r) = s) ∧
    (ns ∈ Contract.VALID_STATUSES →
      Contract.update_status s.contract ns u r
          = .ok ({ s.contract with status := ns },
            { contract_id := s.contract.id,
              old_status := some s.contract.status, new_status := ns,
              changed_by := u, change_reason := r }) ∧
      (s.contract.deleted_at = none →
        applyContractOp s (.updateStatus ns u r)
            = { s with
                contract := { s.contract with status := ns },
                history :=
                  { contract_id := s.contract.id,
                    old_status := some s.contract.status, new_status := ns,
                    changed_by := u, change_reason := r } :: s.history })) := by
  constructor
  · intro h
    have herr : Contract.update_status s.contract ns u r
        = .error ("Invalid status: " ++ ns) := by
      unfold Contract.update_status
      rw [if_neg h]
    refine ⟨herr, ?_⟩
    unfold applyContractOp
    dsimp only
    unfold ContractService.update_contract_status
    by_cases hd : s.contract.deleted_at = none
    · rw [if_pos hd, herr]
    · rw [if_neg hd]
  · intro h
    have hok : Contract.update_status s.contract ns u r
        = .ok ({ s.contract with status := ns },
          { contract_id := s.contract.id,
            old_status := some s.contract.status, new_status := ns,
            changed_by := u, change_reason := r }) := by
      unfold Contract.update_status
      rw [if_pos h]
    refine ⟨hok, fun hd => ?_⟩
    unfold applyContractOp
    dsimp only
    unfold ContractService.update_contract_status
    rw [if_pos hd, hok]

theorem update_status_validates_and_records_witness :
    ("bogus" ∉ Contract.VALID_STATUSES ∧
      (Contract.update_status sampleState.contract "bogus" 1 none
          = .error ("Invalid status: " ++ "bogus") ∧
       applyContractOp sampleState (.updateStatus "bogus" 1 none)
          = sampleState)) ∧
    ("active" ∈ Contract.VALID_STATUSES ∧
      Contract.update_status sampleState.contract "active" 1 none
          = .ok ({ sampleState.contract with status := "active" },
            { contract_id := 1, old_status := some "draft",
              new_status := "active", changed_by := 1,
              change_reason := none })) :=
  ⟨⟨by decide,
    (update_status_validates_and_records sampleState "bogus" 1 none).1
      (by decide)⟩,
   ⟨by decide,
    ((update_status_validates_and_records sampleState "active" 1 none).2
      (by decide)).1⟩⟩

/-- C4 counterexample: starting from a fresh draft contract, after a first
envelope completes (contract active, completedAt = 20), the status is set
back to under_review, a second envelope is sent and progresses to
delivered; when the second envelope is then observed reaching `completed`
while the contract is `under_review`, the contract does NOT transition to
`active` and completedAt is not updated, because a completion date is
already recorded — contradicting the claim that this combination always
transitions the contract. -/
theorem send_and_check_status_transitions_counterexample :
    (runContractOps sampleState staleCompletionOps).contract.status
        = Contract.STATUS_UNDER_REVIEW ∧
    (runContractOps sampleState staleCompletionOps).contract.docusign_status
        = some "delivered" ∧
    (DocuSignMockService.check_envelope_status
        (runContractOps sampleState staleCompletionOps).contract
        "mock-ds-0002" none 0 120).1.status = some "completed" ∧
    (DocuSignMockService.check_envelope_status
        (runContractOps sampleState staleCompletionOps).contract
        "mock-ds-0002" none 0 120).2.status = Contract.STATUS_UNDER_REVIEW ∧
    (DocuSignMockService.check_envelope_status
        (runContractOps sampleState staleCompletionOps).contract
        "mock-ds-0002" none 0 120).2.status ≠ Contract.STATUS_ACTIVE ∧
    (DocuSignMockService.check_envelope_status
        (runContractOps sampleState staleCompletionOps).contract
        "mock-ds-0002" none 0 120).2.docusign_completed_date = some 20 := by
  decide

/-- C4 (amended): a successful `send` on a contract in `draft` status
transitions it to `under_review` and `send` never changes the status of a
non-draft contract; `checkStatus` observing the envelope reach `completed`
on a contract in `under_review` sets completedAt and transitions the
contract to `active` provided no completion date is already recorded (the
code skips both updates when `docusign_completed_date` is already set); and
in every other combination — non-`under_review` contract, or an envelope
progression that does not reach `completed` — `checkStatus` leaves the
contract status unchanged. -/
theorem send_and_check_status_transitions (c : Contract)
    (docs : List ContractDocument) (cn re : String) (rn : Option String)
    (did : Option Nat) (env : String) (ae : Bool) (now : Int)
    (cid : Option Nat) (rand : Nat) (now2 sd : Int) :
    ((DocuSignMockService.send_contract_for_signature c docs cn re rn did env
        ae now).1.success = true →
      c.status = Contract.STATUS_DRAFT →
      (DocuSignMockService.send_contract_for_signature c docs cn re rn did env
        ae now).2.status = Contract.STATUS_UNDER_REVIEW) ∧
    (c.status ≠ Contract.STATUS_DRAFT →
      (DocuSignMockService.send_contract_for_signature c docs cn re rn did env
        ae now).2.status = c.status) ∧
    (py_startswith env DocuSignMockService.envelope_id_start = true →
      DocuSignMockService.envelope_lookup_hits c env cid = true →
      c.docusign_sent_date = some sd →
      DocuSignMockService.simulate_status_progression c.docusign_status
        (now2 - sd) rand = some "completed" →
      c.docusign_status ≠ some "completed" →
      c.docusign_completed_date = none →
      c.status = Contract.STATUS_UNDER_REVIEW →
      (DocuSignMockService.check_envelope_status c env cid rand now2).2.status
          = Contract.STATUS_ACTIVE ∧
      (DocuSignMockService.check_envelope_status c env cid rand
        now2).2.docusign_completed_date = some now2) ∧
    (c.status ≠ Contract.STATUS_UNDER_REVIEW →
      (DocuSignMockService.check_envelope_status c env cid rand now2).2.status
          = c.status) ∧
    ((∀ sd2, c.docusign_sent_date = some sd2 →
        DocuSignMockService.simulate_status_progression c.docusign_status
          (now2 - sd2) rand ≠ some "completed") →
      (DocuSignMockService.check_envelope_status c env cid rand now2).2.status
          = c.status) := by
  refine ⟨send_success_draft c docs cn re rn did env ae now, ?_, ?_, ?_, ?_⟩
  · intro hnd
    rcases send_status_or c docs cn re rn did env ae now with h | ⟨hd, _⟩
    · exact h
    · exact absurd hd hnd
  · intro hpre hfound hsd hprog hcur hdate hur
    have h := check_completed_transition c env cid rand now2 sd hpre hfound hsd
      hprog hcur hdate hur
    exact ⟨h.1, h.2.1⟩
  · intro hnur
    rcases check_status_or c env cid rand now2 with h | ⟨hur, _⟩
    · exact h
    · exact absurd hur hnur
  · intro hnc
    rcases check_status_or c env cid rand now2 with h | ⟨_, _, _, _, sd2, hsd2, hprog2⟩
    · exact h
    · exact absurd hprog2 (hnc sd2 hsd2)

theorem send_and_check_status_transitions_witness :
    ((DocuSignMockService.send_contract_for_signature sampleDraftContract
        [sampleDoc] "Acme" "a@b.com" none (some 1) "mock-ds-0001" false
        0).1.success = true ∧
      sampleDraftContract.status = Contract.STATUS_DRAFT ∧
      (DocuSignMockService.send_contract_for_signature sampleDraftContract
        [sampleDoc] "Acme" "a@b.com" none (some 1) "mock-ds-0001" false
        0).2.status = Contract.STATUS_UNDER_REVIEW) ∧
    ((DocuSignMockService.check_envelope_status sampleUnderReviewContract
        "mock-ds-0001" none 0 20).2.status = Contract.STATUS_ACTIVE ∧
     (DocuSignMockService.check_envelope_status sampleUnderReviewContract
        "mock-ds-0001" none 0 20).2.docusign_completed_date = some 20) :=
  ⟨⟨by decide, by decide,
    (send_and_check_status_transitions sampleDraftContract [sampleDoc] "Acme"
        "a@b.com" none (some 1) "mock-ds-0001" false 0 none 0 20 0).1
      (by decide) (by decide)⟩,
   (send_and_check_status_transitions sampleUnderReviewContract [] "Acme"
        "a@b.com" none none "mock-ds-0001" false 0 none 0 20 0).2.2.1
      (by decide) (by decide) (by decide) (by decide) (by decide) (by decide)
      (by decide)⟩

theorem update_contract_status_ok (c : Contract) (ns : String) (u : Nat)
    (r : Option String) (c1 : Contract) (h1 : ContractStatusHistory)
    (h : ContractService.update_contract_status c ns u r = .ok (c1, h1)) :
    c.deleted_at = none ∧ ns ∈ Contract.VALID_STATUSES ∧
    c1.status = ns ∧ c1.deleted_at = c.deleted_at := by
  unfold ContractService.update_contract_status at h
  by_cases hd : c.deleted_at = none
  · rw [if_pos hd] at h
    unfold Contract.update_status at h
    by_cases hv : ns ∈ Contract.VALID_STATUSES
    · rw [if_pos hv] at h
      injection h with h2
      injection h2 with hc hh
      subst hc
      exact ⟨hd, hv, rfl, rfl⟩
    · rw [if_neg hv] at h
      exact absurd h (by simp)
  · rw [if_neg hd] at h
    exact absurd h (by simp)

theorem soft_delete_contract_ok (c : Contract) (u : Nat) (now : Int)
    (c1 : Contract) (h1 : ContractStatusHistory)
    (h : ContractService.soft_delete_contract c u now = .ok (c1, h1)) :
    c1.status = Contract.STATUS_DELETED ∧ c1.deleted_at = some now := by
  unfold ContractService.soft_delete_contract at h
  by_cases hd : c.deleted_at = none
  · rw [if_pos hd] at h
    unfold Contract.soft_delete Contract.update_status at h
    rw [if_pos (by decide)] at h
    injection h with h2
    injection h2 with hc hh
    subst hc
    exact ⟨rfl, rfl⟩
  · rw [if_neg hd] at h
    exact absurd h (by simp)

theorem restore_contract_ok (c : Contract) (u : Nat) (c1 : Contract)
    (h1 : ContractStatusHistory)
    (h : ContractService.restore_contract c u = .ok (c1, h1)) :
    c1.status = Contract.STATUS_DRAFT ∧ c1.deleted_at = none := by
  unfold ContractService.restore_contract at h
  by_cases hd : c.deleted_at = none
  · rw [if_pos hd] at h
    exact absurd h (by simp)
  · rw [if_neg hd] at h
    unfold Contract.restore Contract.update_status at h
    rw [if_pos (by decide)] at h
    injection h with h2
    injection h2 with hc hh
    subst hc
    exact ⟨rfl, rfl⟩

theorem applyContractOp_history_aux (s : ContractState)
    (x : Except String (Contract × ContractStatusHistory)) :
    ((match x with
      | .ok (c, h) => { s with contract := c, history := h :: s.history }
      | .error _ => s) : ContractState).history.length =
      s.history.length + (if exceptOk x then 1 else 0) := by
  cases x with
  | ok p =>
    obtain ⟨c1, h1⟩ := p
    simp [exceptOk]
  | error e => simp [exceptOk]

theorem applyContractOp_history_length (s : ContractState) (op : ContractOp) :
    (applyContractOp s op).history.length =
      s.history.length + (if opUpdateSucceeds s op then 1 else 0) := by
  cases op with
  | updateStatus ns u r =>
    exact applyContractOp_history_aux s
      (ContractService.update_contract_status s.contract ns u r)
  | softDelete u now =>
    exact applyContractOp_history_aux s
      (ContractService.soft_delete_contract s.contract u now)
  | restoreContract u =>
    exact applyContractOp_history_aux s
      (ContractService.restore_contract s.contract u)
  | docusignSend re rn did env apierr now =>
    simp [applyContractOp, opUpdateSucceeds]
  | docusignCheck env cid rand now =>
    simp [applyContractOp, opUpdateSucceeds]

/-- C1 (amended): along any operation sequence, the number of
`ContractStatusHistory` rows grows by exactly the number of successful
`update_status` calls — one row per successful status update, soft delete
or restore; the DocuSign operations, which assign `contract.status`
directly, never append a history row. -/
theorem status_history_counts_update_status_calls (s : ContractState)
    (ops : List ContractOp) :
    (runContractOps s ops).history.length
      = s.history.length + countStatusUpdates s ops := by
  induction ops generalizing s with
  | nil => simp [runContractOps, countStatusUpdates]
  | cons op ops ih =>
    rw [runContractOps, countStatusUpdates, ih (applyContractOp s op),
      applyContractOp_history_length]
    omega

/-- C1 counterexample: sending a draft contract for signature changes its
status (draft to under_review) without appending any StatusHistoryEntry,
so the history count does not equal the number of status changes. -/
theorem status_history_counts_update_status_calls_counterexample :
    countStatusFieldChanges sampleState
        [.docusignSend "a@b.com" none (some 1) "mock-ds-0001" false 0] = 1 ∧
    (runContractOps sampleState
        [.docusignSend "a@b.com" none (some 1)
          "mock-ds-0001" false 0]).history.length = 0 ∧
    (runContractOps sampleState
        [.docusignSend "a@b.com" none (some 1)
          "mock-ds-0001" false 0]).contract.status
      ≠ sampleState.contract.status := by
  decide

theorem applyContractOp_preserves_deleted_iff (s : ContractState)
    (op : ContractOp) (hinv : status_deleted_iff_deleted_at s.contract)
    (hop : opAvoidsDirectDeleted op) :
    status_deleted_iff_deleted_at (applyContractOp s op).contract := by
  cases op with
  | updateStatus ns u r =>
    have hop' : ns ≠ Contract.STATUS_DELETED := hop
    simp only [applyContractOp]
    cases h : ContractService.update_contract_status s.contract ns u r with
    | ok p =>
      obtain ⟨c1, h1⟩ := p
      obtain ⟨hd, hv, hst, hdel⟩ := update_contract_status_ok _ _ _ _ _ _ h
      show c1.status = Contract.STATUS_DELETED ↔ c1.deleted_at ≠ none
      rw [hst, hdel, hd]
      exact ⟨fun hx => absurd hx hop', fun hx => absurd rfl hx⟩
    | error e => exact hinv
  | softDelete u now =>
    simp only [applyContractOp]
    cases h : ContractService.soft_delete_contract s.contract u now with
    | ok p =>
      obtain ⟨c1, h1⟩ := p
      obtain ⟨hst, hdel⟩ := soft_delete_contract_ok _ _ _ _ _ h
      show c1.status = Contract.STATUS_DELETED ↔ c1.deleted_at ≠ none
      rw [hst, hdel]
      simp
    | error e => exact hinv
  | restoreContract u =>
    simp only [applyContractOp]
    cases h : ContractService.restore_contract s.contract u with
    | ok p =>
      obtain ⟨c1, h1⟩ := p
      obtain ⟨hst, hdel⟩ := restore_contract_ok _ _ _ _ h
      show c1.status = Contract.STATUS_DELETED ↔ c1.deleted_at ≠ none
      rw [hst, hdel]
      decide
    | error e => exact hinv
  | docusignSend re rn did env apierr now =>
    show status_deleted_iff_deleted_at
      (DocuSignMockService.send_contract_for_signature s.contract s.documents
        s.client_name re rn did env apierr now).2
    rcases send_status_or s.contract s.documents s.client_name re rn did env
        apierr now with hsame | ⟨hdr, hur⟩
    · show (DocuSignMockService.send_contract_for_signature s.contract
          s.documents s.client_name re rn did env apierr now).2.status
            = Contract.STATUS_DELETED ↔ _
      rw [hsame, send_deleted_at_eq]
      exact hinv
    · have hnone : s.contract.deleted_at = none := by
        by_contra hne
        exact absurd (hinv.mpr hne) (by rw [hdr]; decide)
      show (DocuSignMockService.send_contract_for_signature s.contract
          s.documents s.client_name re rn did env apierr now).2.status
            = Contract.STATUS_DELETED ↔ _
      rw [hur, send_deleted_at_eq, hnone]
      exact ⟨fun hx => absurd hx (by decide), fun hx => absurd rfl hx⟩
  | docusignCheck env cid rand now =>
    show status_deleted_iff_deleted_at
      (DocuSignMockService.check_envelope_status s.contract env cid rand now).2
    rcases check_status_or s.contract env cid rand now with
      hsame | ⟨hur, hact, _, _, _⟩
    · show (DocuSignMockService.check_envelope_status s.contract env cid rand
          now).2.status = Contract.STATUS_DELETED ↔ _
      rw [hsame, check_deleted_at_eq]
      exact hinv
    · have hnone : s.contract.deleted_at = none := by
        by_contra hne
        exact absurd (hinv.mpr hne) (by rw [hur]; decide)
      show (DocuSignMockService.check_envelope_status s.contract env cid rand
          now).2.status = Contract.STATUS_DELETED ↔ _
      rw [hact, check_deleted_at_eq, hnone]
      exact ⟨fun hx => absurd hx (by decide), fun hx => absurd rfl hx⟩

/-- C2 (amended): starting from a contract satisfying
`status == DELETED ⟺ deletedAt != null` (as a fresh draft does), the
invariant is preserved by any sequence of service-level status updates,
soft deletes, restores and DocuSign operations, provided `updateStatus` is
never called with `DELETED` directly. -/
theorem status_deleted_iff_deleted_at_invariant (s : ContractState)
    (ops : List ContractOp)
    (hinv : status_deleted_iff_deleted_at s.contract)
    (hops : ∀ op ∈ ops, opAvoidsDirectDeleted op) :
    status_deleted_iff_deleted_at (runContractOps s ops).contract := by
  induction ops generalizing s with
  | nil => exact hinv
  | cons op ops ih =>
    rw [runContractOps]
    exact ih (applyContractOp s op)
      (applyContractOp_preserves_deleted_iff s op hinv
        (hops op (List.mem_cons_self op ops)))
      (fun o ho => hops o (List.mem_cons_of_mem op ho))

/-- C2 counterexample: calling the status-update operation with "deleted"
on a fresh draft contract is accepted ("deleted" is in the enum) and yields
status DELETED with deletedAt still null, violating the claimed
equivalence. -/
theorem status_deleted_iff_deleted_at_invariant_counterexample :
    (applyContractOp sampleState
        (.updateStatus Contract.STATUS_DELETED 1 none)).contract.status
      = Contract.STATUS_DELETED ∧
    (applyContractOp sampleState
        (.updateStatus Contract.STATUS_DELETED 1 none)).contract.deleted_at
      = none ∧
    ¬ status_deleted_iff_deleted_at
        (applyContractOp sampleState
          (.updateStatus Contract.STATUS_DELETED 1 none)).contract := by
  decide

theorem status_deleted_iff_deleted_at_invariant_witness :
    status_deleted_iff_deleted_at sampleState.contract ∧
    (∀ op ∈ ([.softDelete 1 5, .restoreContract 1,
        .updateStatus "active" 1 none] : List ContractOp),
      opAvoidsDirectDeleted op) ∧
    status_deleted_iff_deleted_at
      (runContractOps sampleState
        [.softDelete 1 5, .restoreContract 1,
         .updateStatus "active" 1 none]).contract :=
  ⟨by decide, by decide,
   status_deleted_iff_deleted_at_invariant sampleState
     [.softDelete 1 5, .restoreContract 1, .updateStatus "active" 1 none]
     (by decide) (by decide)⟩

theorem log_contract_changes_foldl (l : List String) (q : List LogData)
    (cid uid : Nat) (ov nv : String → Option String) :
    l.foldl (fun acc field =>
      if pystr (ov field) ≠ pystr (nv field) then
        ActivityLogger.log_contract_change acc cid uid field (ov field) (nv field)
      else acc) q
    = q ++ (l.filter (fun f => decide (pystr (ov f) ≠ pystr (nv f)))).map
        (fun f => versionEntry cid uid f (ov f) (nv f)) := by
  induction l generalizing q with
  | nil => simp
  | cons f l ih =>
    rw [List.foldl_cons, List.filter_cons]
    by_cases hf : pystr (ov f) ≠ pystr (nv f)
    · rw [if_pos hf, ih]
      simp [hf, ActivityLogger.log_contract_change, versionEntry]
    · rw [if_neg hf, ih]
      simp [hf]

/-- C8 (amended): the low-level `ActivityLogger.log_contract_change` —
the function with the `logFieldChange(contractId, userId, fieldName,
oldValue, newValue)` signature — enqueues a version record
unconditionally, even when the stringified values are equal; the
`str(old) != str(new)` guard lives in its caller `log_contract_changes`,
which enqueues one version entry per tracked field exactly when the
stringified old and new values differ. -/
theorem log_field_change_guard (q : List LogData) (cid uid : Nat)
    (field : String) (old_value new_value : Option String)
    (ov nv : String → Option String) :
    ActivityLogger.log_contract_change q cid uid field old_value new_value
      = q ++ [versionEntry cid uid field old_value new_value] ∧
    log_contract_changes q cid uid ov nv
      = q ++ (tracked_fields.filter
          (fun f => decide (pystr (ov f) ≠ pystr (nv f)))).map
          (fun f => versionEntry cid uid f (ov f) (nv f)) := by
  constructor
  · simp [ActivityLogger.log_contract_change, versionEntry]
  · unfold log_contract_changes
    exact log_contract_changes_foldl tracked_fields q cid uid ov nv

/-- C8 counterexample: a call of the 5-argument `log_contract_change` with
equal stringified old and new values still enqueues one version record,
refuting the claim that nothing is enqueued when `str(old) == str(new)`. -/
theorem log_field_change_guard_counterexample :
    pystr (some "x") = pystr (some "x") ∧
    (ActivityLogger.log_contract_change [] 1 2 "title" (some "x")
      (some "x")).length = 1 ∧
    ActivityLogger.log_contract_change [] 1 2 "title" (some "x") (some "x")
      ≠ ([] : List LogData) := by
  decide

/-- C9 (amended) supporting facts: a run keeps exactly the activity rows at
most 30 days old and the version rows at most 90 days old, hard-deletes
exactly the contracts soft-deleted more than 30 days ago, and leaves the
document rows and blob paths untouched. -/
theorem run_all_cleanup_tasks_spec (s : RetentionState) (now : Int) :
    (∀ r ∈ s.activity_logs,
      (r ∈ (CleanupService.run_all_cleanup_tasks s now).activity_logs ↔
        ¬ r.timestamp < now - 30)) ∧
    (∀ v ∈ s.contract_versions,
      (v ∈ (CleanupService.run_all_cleanup_tasks s now).contract_versions ↔
        ¬ v.timestamp < now - 90)) ∧
    (∀ c ∈ s.contracts,
      (c ∈ (CleanupService.run_all_cleanup_tasks s now).contracts ↔
        ∀ d, c.deleted_at = some d → ¬ d < now - 30)) ∧
    (CleanupService.run_all_cleanup_tasks s now).documents = s.documents ∧
    (CleanupService.run_all_cleanup_tasks s now).blobs = s.blobs := by
  refine ⟨?_, ?_, ?_, rfl, rfl⟩
  · intro r hr
    show r ∈ s.activity_logs.filter
        (fun x => decide (now - 30 ≤ x.timestamp)) ↔ _
    rw [List.mem_filter]
    simp [hr, not_lt]
  · intro v hv
    show v ∈ s.contract_versions.filter
        (fun x => decide (now - 90 ≤ x.timestamp)) ↔ _
    rw [List.mem_filter]
    simp [hv, not_lt]
  · intro c hc
    show c ∈ s.contracts.filter _ ↔ _
    rw [List.mem_filter]
    cases hdel : c.deleted_at with
    | none => simp [CleanupService.cleanup_soft_deleted_contracts, hc, hdel]
    | some d => simp [CleanupService.cleanup_soft_deleted_contracts, hc, hdel,
        not_lt]

/-- C9 counterexample: the sweep hard-deletes the contract row soft-deleted
31 days ago, but its associated document row and blob path survive the run
untouched — the sweeper never deletes document blobs. -/
theorem run_all_cleanup_tasks_spec_counterexample :
    (CleanupService.run_all_cleanup_tasks staleBlobbedState 0).contracts
      = [] ∧
    (CleanupService.run_all_cleanup_tasks staleBlobbedState 0).blobs
      = ["f.pdf"] ∧
    (CleanupService.run_all_cleanup_tasks staleBlobbedState 0).documents
      = [sampleDoc] := by
  decide

theorem run_all_cleanup_tasks_spec_witness :
    ({ timestamp := -40 } : ActivityLog) ∉
      (CleanupService.run_all_cleanup_tasks retentionWitnessState
        0).activity_logs ∧
    ({ timestamp := -10 } : ActivityLog) ∈
      (CleanupService.run_all_cleanup_tasks retentionWitnessState
        0).activity_logs ∧
    ({ timestamp := -100 } : ContractVersion) ∉
      (CleanupService.run_all_cleanup_tasks retentionWitnessState
        0).contract_versions ∧
    contract29 ∈
      (CleanupService.run_all_cleanup_tasks retentionWitnessState
        0).contracts :=
  ⟨fun hmem => absurd
     (((run_all_cleanup_tasks_spec retentionWitnessState 0).1
        { timestamp := -40 } (by decide)).mp hmem) (by decide),
   ((run_all_cleanup_tasks_spec retentionWitnessState 0).1
      { timestamp := -10 } (by decide)).mpr (by decide),
   fun hmem => absurd
     (((run_all_cleanup_tasks_spec retentionWitnessState 0).2.1
        { timestamp := -100 } (by decide)).mp hmem) (by decide),
   ((run_all_cleanup_tasks_spec retentionWitnessState 0).2.2.1
      contract29 (by decide)).mpr (by
        intro d hd
        injection hd with h
        rw [← h]
        decide)⟩

theorem unset_primary_ids (db : List ContractDocument) (cid : Nat) :
    docIds (DocumentService.unset_primary_documents db cid) = docIds db := by
  unfold docIds DocumentService.unset_primary_documents
  rw [List.map_map]
  apply List.map_congr_left
  intro d _
  dsimp [Function.comp]
  split <;> rfl

theorem countPrimary_unset_self (db : List ContractDocument) (cid : Nat) :
    countPrimary (DocumentService.unset_primary_documents db cid) cid = 0 := by
  unfold countPrimary DocumentService.unset_primary_documents
  rw [List.countP_map, List.countP_eq_zero]
  intro d _
  dsimp [Function.comp]
  split
  · simp
  · rename_i h
    simpa using h

theorem countPrimary_unset_other (db : List ContractDocument) (cid cid' : Nat)
    (hne : cid' ≠ cid) :
    countPrimary (DocumentService.unset_primary_documents db cid) cid'
      = countPrimary db cid' := by
  unfold countPrimary DocumentService.unset_primary_documents
  rw [List.countP_map]
  apply List.countP_congr
  intro d _
  dsimp [Function.comp]
  split
  · rename_i h
    simp only [Bool.and_eq_true, beq_iff_eq] at h
    simp [h.1, Ne.symm hne]
  · exact Iff.rfl

theorem next_document_id_fresh (db : List ContractDocument) :
    ∀ d ∈ db, d.id < DocumentService.next_document_id db := by
  unfold DocumentService.next_document_id
  intro d hd
  have : d.id ≤ db.foldr (fun d m => max d.id m) 0 := by
    induction db with
    | nil => cases hd
    | cons e l ih =>
      rw [List.foldr_cons]
      rcases List.mem_cons.mp hd with rfl | hmem
      · exact Nat.le_max_left _ _
      · exact Nat.le_trans (ih hmem) (Nat.le_max_right _ _)
  omega

theorem two_le_countP {α : Type} {p : α → Bool} {l : List α} {a b : α}
    (ha : a ∈ l) (hb : b ∈ l) (hab : a ≠ b) (hpa : p a = true)
    (hpb : p b = true) : 2 ≤ l.countP p := by
  induction l with
  | nil => cases ha
  | cons x l ih =>
    rcases List.mem_cons.mp ha with rfl | ha2
    · have hb2 : b ∈ l := by
        rcases List.mem_cons.mp hb with rfl | h
        · exact absurd rfl hab
        · exact h
      rw [List.countP_cons_of_pos _ _ hpa]
      have : 0 < l.countP p := List.countP_pos_iff.mpr ⟨b, hb2, hpb⟩
      omega
    · rcases List.mem_cons.mp hb with rfl | hb2
      · rw [List.countP_cons_of_pos _ _ hpb]
        have : 0 < l.countP p := List.countP_pos_iff.mpr ⟨a, ha2, hpa⟩
        omega
      · calc 2 ≤ l.countP p := ih ha2 hb2
          _ ≤ (x :: l).countP p := by rw [List.countP_cons]; omega

theorem eq_of_countP_le_one {α : Type} {p : α → Bool} {l : List α}
    (h : l.countP p ≤ 1) {a b : α} (ha : a ∈ l) (hb : b ∈ l)
    (hpa : p a = true) (hpb : p b = true) : a = b := by
  by_contra hab
  exact absurd (two_le_countP ha hb hab hpa hpb) (by omega)

theorem doc_id_injective (db : List ContractDocument)
    (hids : (docIds db).Nodup) {a b : ContractDocument} (ha : a ∈ db)
    (hb : b ∈ db) (hid : a.id = b.id) : a = b :=
  List.inj_on_of_nodup_map hids ha hb hid

theorem countP_id_eq_one (db : List ContractDocument)
    (hids : (docIds db).Nodup) {x : ContractDocument} (hx : x ∈ db) :
    db.countP (fun d => d.id == x.id) = 1 := by
  have h1 : db.countP (fun d => d.id == x.id)
      = (docIds db).countP (fun i => i == x.id) := by
    unfold docIds
    rw [List.countP_map]
    exact List.countP_congr (fun d _ => Iff.rfl)
  rw [h1, ← List.count_eq_countP]
  exact List.count_eq_one_of_mem hids (List.mem_map_of_mem (·.id) hx)

theorem latest_uploaded_none {l : List ContractDocument}
    (h : DocumentService.latest_uploaded l = none) : l = [] := by
  cases l with
  | nil => rfl
  | cons x l =>
    rw [DocumentService.latest_uploaded] at h
    cases hl : DocumentService.latest_uploaded l <;> rw [hl] at h <;>
      dsimp only at h
    · exact Option.noConfusion h
    · split at h <;> exact Option.noConfusion h

theorem latest_uploaded_mem {l : List ContractDocument} {d : ContractDocument}
    (h : DocumentService.latest_uploaded l = some d) : d ∈ l := by
  induction l generalizing d with
  | nil => exact Option.noConfusion h
  | cons x l ih =>
    rw [DocumentService.latest_uploaded] at h
    cases hl : DocumentService.latest_uploaded l <;> rw [hl] at h <;>
      dsimp only at h
    · injection h with h2
      exact h2 ▸ List.mem_cons_self x l
    · rename_i e
      split at h
      · injection h with h2
        exact List.mem_cons_of_mem x (h2 ▸ ih hl)
      · injection h with h2
        exact h2 ▸ List.mem_cons_self x l

theorem latest_uploaded_max {l : List ContractDocument} {d : ContractDocument}
    (h : DocumentService.latest_uploaded l = some d) :
    ∀ x ∈ l, x.uploaded_at ≤ d.uploaded_at := by
  induction l generalizing d with
  | nil => exact Option.noConfusion h
  | cons x l ih =>
    intro y hy
    rw [DocumentService.latest_uploaded] at h
    cases hl : DocumentService.latest_uploaded l <;> rw [hl] at h <;>
      dsimp only at h
    · injection h with h2
      have hnil : l = [] := latest_uploaded_none hl
      subst hnil
      rcases List.mem_cons.mp hy with rfl | hmem
      · exact h2 ▸ Int.le_refl _
      · cases hmem
    · rename_i e
      split at h
      · rename_i hcmp
        injection h with h2
        subst h2
        rcases List.mem_cons.mp hy with rfl | hmem
        · exact Int.le_of_lt hcmp
        · exact ih hl y hmem
      · rename_i hcmp
        injection h with h2
        subst h2
        rcases List.mem_cons.mp hy with rfl | hmem
        · exact Int.le_refl _
        · exact Int.le_trans (ih hl y hmem) (Int.not_lt.mp hcmp)

theorem mark_primary_ids (l : List ContractDocument) (i : Nat) :
    docIds (l.map
      (fun d => if d.id == i then { d with is_primary := true } else d))
      = docIds l := by
  unfold docIds
  rw [List.map_map]
  apply List.map_congr_left
  intro d _
  dsimp [Function.comp]
  split <;> rfl

theorem nodup_append_fresh_id (l : List ContractDocument)
    (doc : ContractDocument) (hids : (docIds l).Nodup)
    (hfresh : doc.id ∉ docIds l) : (docIds (l ++ [doc])).Nodup := by
  unfold docIds at *
  rw [List.map_append, List.nodup_append]
  refine ⟨hids, List.nodup_singleton _, ?_⟩
  intro a ha hb
  simp only [List.map_cons, List.map_nil, List.mem_singleton] at hb
  exact hfresh (hb ▸ ha)

theorem upload_document_invariant (db : List ContractDocument)
    (cid : Nat) (path : String) (u : Nat) (now : Int) (isP : Bool)
    (h : documentInvariant db) :
    documentInvariant
      (DocumentService.upload_document db cid path u now isP) := by
  obtain ⟨hids, hcount⟩ := h
  have hfresh : DocumentService.next_document_id db ∉ docIds db := by
    intro hmem
    obtain ⟨d, hd, hdid⟩ := List.mem_map.mp hmem
    have := next_document_id_fresh db d hd
    omega
  cases isP with
  | true =>
    unfold DocumentService.upload_document
    dsimp only
    rw [if_pos rfl]
    constructor
    · apply nodup_append_fresh_id
      · rw [unset_primary_ids]
        exact hids
      · show DocumentService.next_document_id db
          ∉ docIds (DocumentService.unset_primary_documents db cid)
        rw [unset_primary_ids]
        exact hfresh
    · intro cid'
      unfold countPrimary
      rw [List.countP_append, List.countP_singleton]
      by_cases hc : cid' = cid
      · subst hc
        have h0 := countPrimary_unset_self db cid'
        unfold countPrimary at h0
        rw [h0]
        simp
      · have he := countPrimary_unset_other db cid cid' hc
        unfold countPrimary at he
        rw [he]
        rw [if_neg (by simp [Ne.symm hc])]
        have hcnt := hcount cid'
        unfold countPrimary at hcnt
        omega
  | false =>
    unfold DocumentService.upload_document
    dsimp only
    rw [if_neg (by decide)]
    constructor
    · exact nodup_append_fresh_id db _ hids hfresh
    · intro cid'
      unfold countPrimary
      rw [List.countP_append, List.countP_singleton]
      rw [if_neg (by simp)]
      have hcnt := hcount cid'
      unfold countPrimary at hcnt
      omega

theorem countPrimary_unset_mark_self (db : List ContractDocument) (cid : Nat)
    (f : ContractDocument) (hids : (docIds db).Nodup) (hf : f ∈ db)
    (hfc : f.contract_id = cid) :
    countPrimary ((DocumentService.unset_primary_documents db cid).map
      (fun d => if d.id == f.id then { d with is_primary := true } else d)) cid
    = 1 := by
  unfold countPrimary DocumentService.unset_primary_documents
  rw [List.map_map, List.countP_map, ← countP_id_eq_one db hids hf]
  apply List.countP_congr
  intro d hd
  dsimp [Function.comp]
  by_cases hdid : d.id = f.id
  · obtain rfl := doc_id_injective db hids hd hf hdid
    split_ifs <;> simp_all
  · split_ifs <;> simp_all

theorem countPrimary_unset_mark_other (db : List ContractDocument) (cid : Nat)
    (f : ContractDocument) (hids : (docIds db).Nodup) (hf : f ∈ db)
    (hfc : f.contract_id = cid) (cid' : Nat) (hne : cid' ≠ cid) :
    countPrimary ((DocumentService.unset_primary_documents db cid).map
      (fun d => if d.id == f.id then { d with is_primary := true } else d)) cid'
    = countPrimary db cid' := by
  unfold countPrimary DocumentService.unset_primary_documents
  rw [List.map_map, List.countP_map]
  apply List.countP_congr
  intro d hd
  dsimp [Function.comp]
  by_cases hdid : d.id = f.id
  · obtain rfl := doc_id_injective db hids hd hf hdid
    split_ifs <;> simp_all [Ne.symm hne]
  · split_ifs <;> simp_all [Ne.symm hne]

theorem set_primary_document_invariant (db : List ContractDocument)
    (did cid : Nat) (hinv : documentInvariant db)
    (db1 : List ContractDocument)
    (hok : DocumentService.set_primary_document db did cid = .ok db1) :
    documentInvariant db1 ∧ countPrimary db1 cid = 1 := by
  obtain ⟨hids, hcount⟩ := hinv
  unfold DocumentService.set_primary_document at hok
  cases hfind : db.find? (fun d => d.id == did && d.contract_id == cid) with
  | none =>
    rw [hfind] at hok
    exact Except.noConfusion hok
  | some f =>
    rw [hfind] at hok
    dsimp only at hok
    injection hok with hdb1
    subst hdb1
    have hfmem : f ∈ db := List.mem_of_find?_eq_some hfind
    have hfp := List.find?_some hfind
    simp only [Bool.and_eq_true, beq_iff_eq] at hfp
    obtain ⟨hfid, hfc⟩ := hfp
    subst hfid
    refine ⟨⟨?_, ?_⟩, ?_⟩
    · show (docIds ((DocumentService.unset_primary_documents db cid).map
        _)).Nodup
      rw [mark_primary_ids, unset_primary_ids]
      exact hids
    · intro cid'
      by_cases hc : cid' = cid
      · subst hc
        rw [countPrimary_unset_mark_self db cid' f hids hfmem hfc]
      · rw [countPrimary_unset_mark_other db cid f hids hfmem hfc cid' hc]
        exact hcount cid'
    · exact countPrimary_unset_mark_self db cid f hids hfmem hfc

theorem countPrimary_delete_promote_self (db : List ContractDocument)
    (doc cstar : ContractDocument) (hids : (docIds db).Nodup)
    (hdmem : doc ∈ db) (hdp : doc.is_primary = true)
    (hcount1 : countPrimary db doc.contract_id ≤ 1)
    (hcmem : cstar ∈ db) (hcc : cstar.contract_id = doc.contract_id)
    (hcid : cstar.id ≠ doc.id) :
    countPrimary (List.filter (fun d => d.id != doc.id)
      (db.map (fun d =>
        if d.id == cstar.id then { d with is_primary := true } else d)))
      doc.contract_id = 1 := by
  have huniq : ∀ e ∈ db,
      (e.contract_id == doc.contract_id && e.is_primary) = true → e = doc := by
    intro e he hpe
    exact eq_of_countP_le_one hcount1 he hdmem hpe (by simp [hdp])
  unfold countPrimary
  rw [List.countP_filter, List.countP_map, ← countP_id_eq_one db hids hcmem]
  apply List.countP_congr
  intro d hd
  dsimp [Function.comp]
  by_cases hdid : d.id = cstar.id
  · obtain rfl := doc_id_injective db hids hd hcmem hdid
    simp_all
  · rw [if_neg (by simpa using hdid)]
    constructor
    · intro hb
      simp only [Bool.and_eq_true, beq_iff_eq, bne_iff_ne, ne_eq] at hb
      obtain ⟨⟨h1, h2⟩, h3⟩ := hb
      have hdd : d = doc := huniq d hd (by simp [h1, h2])
      exact absurd (by rw [hdd]) h3
    · intro hb
      simp only [beq_iff_eq] at hb
      exact absurd hb hdid

theorem countPrimary_delete_promote_other (db : List ContractDocument)
    (doc cstar : ContractDocument) (hids : (docIds db).Nodup)
    (hcmem : cstar ∈ db) (hcc : cstar.contract_id = doc.contract_id)
    (cid' : Nat) (hne : cid' ≠ doc.contract_id) :
    countPrimary (List.filter (fun d => d.id != doc.id)
      (db.map (fun d =>
        if d.id == cstar.id then { d with is_primary := true } else d))) cid'
      ≤ countPrimary db cid' := by
  unfold countPrimary
  rw [List.countP_filter, List.countP_map]
  apply List.countP_mono_left
  intro d hd hb
  dsimp [Function.comp] at hb
  by_cases hdid : d.id = cstar.id
  · obtain rfl := doc_id_injective db hids hd hcmem hdid
    exfalso
    simp_all [Ne.symm hne]
  · rw [if_neg (by simpa using hdid)] at hb
    simp only [Bool.and_eq_true] at hb
    simp only [Bool.and_eq_true]
    exact hb.1

theorem delete_document_invariant (db : List ContractDocument) (did : Nat)
    (cidOpt : Option Nat) (hinv : documentInvariant db)
    (db1 : List ContractDocument)
    (hok : DocumentService.delete_document db did cidOpt = .ok db1) :
    documentInvariant db1 := by
  obtain ⟨hids, hcount⟩ := hinv
  unfold DocumentService.delete_document at hok
  cases hfind : db.find? (fun d => d.id == did) with
  | none =>
    rw [hfind] at hok
    exact Except.noConfusion hok
  | some doc =>
    rw [hfind] at hok
    dsimp only at hok
    split at hok
    · exact Except.noConfusion hok
    · injection hok with hdb1
      subst hdb1
      have hdmem : doc ∈ db := List.mem_of_find?_eq_some hfind
      have hdid : doc.id = did := by simpa using List.find?_some hfind
      subst hdid
      by_cases hp : doc.is_primary = true
      · rw [if_pos hp]
        unfold DocumentService.set_next_primary_document
        dsimp only
        cases hlat : DocumentService.latest_uploaded (db.filter fun d =>
            d.contract_id == doc.contract_id && d.id != doc.id) with
        | none =>
          dsimp only
          constructor
          · exact List.Nodup.sublist ((List.filter_sublist db).map _) hids
          · intro cid''
            unfold countPrimary
            exact Nat.le_trans ((List.filter_sublist db).countP_le _)
              (hcount cid'')
        | some cstar =>
          dsimp only
          have hcmem0 := latest_uploaded_mem hlat
          have hcmem : cstar ∈ db := (List.mem_filter.mp hcmem0).1
          have hcc : cstar.contract_id = doc.contract_id ∧ cstar.id ≠ doc.id := by
            have := (List.mem_filter.mp hcmem0).2
            simpa using this
          constructor
          · apply List.Nodup.sublist ((List.filter_sublist _).map _)
            have hmi := mark_primary_ids db cstar.id
            unfold docIds at hmi
            rw [hmi]
            exact hids
          · intro cid''
            by_cases hc : cid'' = doc.contract_id
            · subst hc
              rw [countPrimary_delete_promote_self db doc cstar hids hdmem hp
                (hcount _) hcmem hcc.1 hcc.2]
            · exact Nat.le_trans
                (countPrimary_delete_promote_other db doc cstar hids hcmem
                  hcc.1 cid'' hc)
                (hcount cid'')
      · rw [if_neg hp]
        constructor
        · exact List.Nodup.sublist ((List.filter_sublist db).map _) hids
        · intro cid''
          unfold countPrimary
          exact Nat.le_trans ((List.filter_sublist db).countP_le _)
            (hcount cid'')

theorem applyDocOp_invariant (db : List ContractDocument) (op : DocOp)
    (h : documentInvariant db) : documentInvariant (applyDocOp db op) := by
  cases op with
  | upload cid path u now isP =>
    exact upload_document_invariant db cid path u now isP h
  | deleteDoc did cidOpt =>
    simp only [applyDocOp]
    cases hok : DocumentService.delete_document db did cidOpt with
    | ok db1 => exact delete_document_invariant db did cidOpt h db1 hok
    | error e => exact h
  | setPrimary did cid =>
    simp only [applyDocOp]
    cases hok : DocumentService.set_primary_document db did cid with
    | ok db1 => exact (set_primary_document_invariant db did cid h db1 hok).1
    | error e => exact h

/-- C3: for every document table with unique ids satisfying the at-most-one
primary condition (in particular the empty table), any sequence of upload,
delete and set-primary operations preserves it: at most one document per
contract has `is_primary` set at every observation point. -/
theorem at_most_one_primary_invariant (db : List ContractDocument)
    (ops : List DocOp) (h : documentInvariant db) :
    atMostOnePrimary (runDocOps db ops) := by
  suffices h2 : documentInvariant (runDocOps db ops) from h2.2
  induction ops generalizing db with
  | nil => exact h
  | cons op ops ih =>
    rw [runDocOps]
    exact ih (applyDocOp db op) (applyDocOp_invariant db op h)

theorem at_most_one_primary_invariant_witness :
    documentInvariant ([] : List ContractDocument) ∧
    atMostOnePrimary (runDocOps []
      [.upload 1 "a.pdf" 1 0 true, .upload 1 "b.pdf" 1 5 true,
       .setPrimary 1 1, .deleteDoc 2 none]) ∧
    countPrimary (runDocOps []
      [.upload 1 "a.pdf" 1 0 true, .upload 1 "b.pdf" 1 5 true,
       .setPrimary 1 1, .deleteDoc 2 none]) 1 = 1 := by
  have hinv : documentInvariant ([] : List ContractDocument) :=
    ⟨by simp [docIds], fun cid => by simp [countPrimary]⟩
  refine ⟨hinv, ?_, by decide⟩
  exact at_most_one_primary_invariant []
    [.upload 1 "a.pdf" 1 0 true, .upload 1 "b.pdf" 1 5 true,
     .setPrimary 1 1, .deleteDoc 2 none] hinv

theorem find?_id_eq (db : List ContractDocument)
    (hids : (docIds db).Nodup) (doc : ContractDocument) (hmem : doc ∈ db) :
    db.find? (fun d => d.id == doc.id) = some doc := by
  induction db with
  | nil => cases hmem
  | cons x l ih =>
    by_cases hx : (x.id == doc.id) = true
    · have hxd : x = doc :=
        doc_id_injective (x :: l) hids (List.mem_cons_self x l) hmem
          (by simpa using hx)
      have hx2 : ((fun (d : ContractDocument) => d.id == doc.id) x) = true := hx
      rw [List.find?_cons_of_pos l hx2, hxd]
    · have hx2 : ¬ ((fun (d : ContractDocument) => d.id == doc.id) x) = true := hx
      rw [List.find?_cons_of_neg l hx2]
      have hids2 : (docIds l).Nodup := by
        have := hids
        unfold docIds at this ⊢
        rw [List.map_cons] at this
        exact (List.nodup_cons.mp this).2
      have hmem2 : doc ∈ l := by
        rcases List.mem_cons.mp hmem with rfl | h2
        · exact absurd (by simp) hx
        · exact h2
      exact ih hids2 hmem2

/-- C6: deleting the primary document of a contract (under the table
well-formedness invariant) promotes exactly one new primary, namely a
most recently uploaded (maximal `uploaded_at`) document among the
remaining documents of that contract; when the deleted primary was the
contract's only document, the contract is left with zero primaries. -/
theorem delete_primary_promotes_most_recent (db : List ContractDocument)
    (doc : ContractDocument) (hinv : documentInvariant db) (hmem : doc ∈ db)
    (hp : doc.is_primary = true) (db1 : List ContractDocument)
    (hok : DocumentService.delete_document db doc.id none = .ok db1) :
    (db.filter (fun d => d.contract_id == doc.contract_id && d.id != doc.id)
        = [] → countPrimary db1 doc.contract_id = 0) ∧
    (db.filter (fun d => d.contract_id == doc.contract_id && d.id != doc.id)
        ≠ [] →
      countPrimary db1 doc.contract_id = 1 ∧
      ∃ nd, nd ∈ db1 ∧ nd.contract_id = doc.contract_id ∧
        nd.is_primary = true ∧
        ∀ e ∈ db.filter (fun d =>
            d.contract_id == doc.contract_id && d.id != doc.id),
          e.uploaded_at ≤ nd.uploaded_at) := by
  obtain ⟨hids, hcount⟩ := hinv
  unfold DocumentService.delete_document at hok
  rw [find?_id_eq db hids doc hmem] at hok
  dsimp only at hok
  split at hok
  · exact Except.noConfusion hok
  · injection hok with hdb1
    unfold DocumentService.set_next_primary_document at hdb1
    dsimp only at hdb1
    cases hlat : DocumentService.latest_uploaded (db.filter fun d =>
        d.contract_id == doc.contract_id && d.id != doc.id) with
    | none =>
      rw [hlat] at hdb1
      dsimp only at hdb1
      subst hdb1
      constructor
      · intro _
        unfold countPrimary
        rw [List.countP_filter, List.countP_eq_zero]
        intro d hd hb
        simp only [Bool.and_eq_true, bne_iff_ne, ne_eq] at hb
        obtain ⟨⟨h1, h2⟩, h3⟩ := hb
        have hdd : d = doc :=
          eq_of_countP_le_one (hcount doc.contract_id) hd hmem
            (by simp [h1, h2]) (by simp [hp])
        exact h3 (by rw [hdd])
      · intro hne
        exact absurd (latest_uploaded_none hlat) hne
    | some cstar =>
      rw [hlat] at hdb1
      dsimp only at hdb1
      subst hdb1
      have hcmem0 := latest_uploaded_mem hlat
      have hcmem : cstar ∈ db := (List.mem_filter.mp hcmem0).1
      have hcc : cstar.contract_id = doc.contract_id ∧ cstar.id ≠ doc.id := by
        have := (List.mem_filter.mp hcmem0).2
        simpa using this
      constructor
      · intro h0
        rw [h0] at hcmem0
        cases hcmem0
      · intro _
        refine ⟨?_, { cstar with is_primary := true }, ?_, ?_, rfl, ?_⟩
        · exact countPrimary_delete_promote_self db doc cstar hids hmem hp
            (hcount doc.contract_id) hcmem hcc.1 hcc.2
        · apply List.mem_filter.mpr
          constructor
          · have himg := List.mem_map_of_mem
              (fun d => if d.id == cstar.id then { d with is_primary := true }
                else d) hcmem
            simpa using himg
          · show (({ cstar with is_primary := true } :
              ContractDocument).id != doc.id) = true
            simpa using hcc.2
        · exact hcc.1
        · intro e he
          exact latest_uploaded_max hlat e he

theorem delete_primary_promotes_most_recent_witness :
    [docA, docB].filter (fun d =>
        d.contract_id == docA.contract_id && d.id != docA.id) ≠ [] ∧
    (countPrimary [{ docB with is_primary := true }] docA.contract_id = 1 ∧
      ∃ nd, nd ∈ [{ docB with is_primary := true }] ∧
        nd.contract_id = docA.contract_id ∧ nd.is_primary = true ∧
        ∀ e ∈ [docA, docB].filter (fun d =>
            d.contract_id == docA.contract_id && d.id != docA.id),
          e.uploaded_at ≤ nd.uploaded_at) :=
  ⟨by decide,
   (delete_primary_promotes_most_recent [docA, docB] docA
      ⟨by decide, fun cid => by
        show List.countP _ [docA, docB] ≤ 1
        rw [List.countP_cons, List.countP_cons, List.countP_nil]
        simp only [docA, docB]
        split_ifs <;> simp_all⟩
      (by decide) (by decide)
      [{ docB with is_primary := true }] rfl).2 (by decide)⟩
